import Mathlib

/-!
Verification of `scripts/fetch_bbk_curve.py`.

The script fetches Bundesbank yield series.  We embed its components
shallowly:

* values of a pandas float Series are modelled by `Val` (a finite rational
  or NaN; the yields handled by the script are plain decimals, so IEEE
  infinities are outside the modelled range);
* the index of a Series is modelled by `Option Nat` — `some d` is a parsed
  calendar date (encoded `y*10000 + m*100 + d`), `none` is pandas `NaT`;
* a pandas Series is a list of (index, value) pairs in index order;
* Python exceptions are modelled by `Except String`; the carried string
  plays the role of the exception text;
* the network is modelled by an environment function giving the outcome of
  each successive HTTP attempt.

Library primitives (`pd.to_datetime`, `pd.to_numeric`, `float`, `int`,
CSV reading) are modelled by executable Lean functions covering the plain
ISO-date and decimal forms that occur in the data; `errors="coerce"`
corresponds to returning `none` / `Val.nan`, a raising coercion to
`Except.error`.
-/

/-- A cell value of a float Series: a finite numeric value or NaN
(the result of a failed coercion or a missing cell). -/
inductive Val
  | num (q : ℚ)
  | nan
deriving DecidableEq

/-- True exactly on NaN (pandas `isna` on a float cell). -/
def isNA : Val → Bool
  | .num _ => false
  | .nan => true

/-- A pandas float Series: (date-index, value) pairs in index order.
`none` in the index position models `NaT`. -/
abbrev SeriesT := List (Option Nat × Val)

instance {ε α : Type} [DecidableEq ε] [DecidableEq α] :
    DecidableEq (Except ε α) := fun a b =>
  match a, b with
  | .error e1, .error e2 =>
    if h : e1 = e2 then .isTrue (by rw [h])
    else .isFalse (by intro hc; cases hc; exact h rfl)
  | .error _, .ok _ => .isFalse (fun hc => Except.noConfusion hc)
  | .ok _, .error _ => .isFalse (fun hc => Except.noConfusion hc)
  | .ok v1, .ok v2 =>
    if h : v1 = v2 then .isTrue (by rw [h])
    else .isFalse (by intro hc; cases hc; exact h rfl)

/-- Index order used by `sort_index`: dates ascending, `NaT` last
(pandas default `na_position="last"`). -/
def keyLEb : Option Nat → Option Nat → Bool
  | _, none => true
  | none, some _ => false
  | some a, some b => Nat.ble a b

/-- Strict version of `keyLEb`. -/
def keyLTb : Option Nat → Option Nat → Bool
  | none, _ => false
  | some _, none => true
  | some a, some b => Nat.blt a b

/-- Order on indexed entries (pairs whose first component is the index). -/
def idxLE {β : Type} (a b : Option Nat × β) : Prop := keyLEb a.1 b.1 = true

instance {β : Type} : DecidableRel (@idxLE β) := fun a b =>
  inferInstanceAs (Decidable (_ = true))

instance {β : Type} : IsTotal (Option Nat × β) idxLE where
  total a b := by
    rcases a with ⟨a1, -⟩; rcases b with ⟨b1, -⟩
    rcases a1 with - | x <;> rcases b1 with - | y <;>
      simp [idxLE, keyLEb, Nat.ble_eq] <;> omega

instance {β : Type} : IsTrans (Option Nat × β) idxLE where
  trans a b c := by
    rcases a with ⟨a1, -⟩; rcases b with ⟨b1, -⟩; rcases c with ⟨c1, -⟩
    rcases a1 with - | x <;> rcases b1 with - | y <;> rcases c1 with - | z <;>
      simp [idxLE, keyLEb, Nat.ble_eq] <;> omega

/-- `sort_index()` on a Series: a stable sort by index, `NaT` last. -/
def sortSeries (s : SeriesT) : SeriesT := List.insertionSort idxLE s

/-- Split a character list on a separator character (the splitting done by
`str.split` / line and field breaking in CSV parsing). -/
def splitChar (sep : Char) : List Char → List (List Char)
  | [] => [[]]
  | c :: cs =>
    match splitChar sep cs with
    | [] => if c = sep then [[], []] else [[c]]
    | r :: rs => if c = sep then [] :: r :: rs else (c :: r) :: rs

/-- Split a string on a separator character. -/
def strSplit (s : String) (sep : Char) : List String :=
  (splitChar sep s.toList).map String.mk

/-- Python/pandas whitespace used by `str.strip`. -/
def isSpaceChar (c : Char) : Bool :=
  c = ' ' || c = '\t' || c = '\n' || c = '\r'

/-- `str.strip()`. -/
def strStrip (s : String) : String :=
  String.mk (((s.toList.dropWhile isSpaceChar).reverse.dropWhile isSpaceChar).reverse)

/-- `str.lower()` (ASCII column names). -/
def strLower (s : String) : String := String.mk (s.toList.map Char.toLower)

/-- The numeric value of a decimal digit. -/
def digitVal (c : Char) : Option Nat :=
  if c.isDigit then some (c.toNat - 48) else none

/-- Read a non-empty all-digit character list as a natural number. -/
def digitsToNat (cs : List Char) : Option Nat :=
  if cs = [] then none
  else cs.foldl (fun acc c =>
    match acc, digitVal c with
    | some a, some d => some (a * 10 + d)
    | _, _ => none) (some 0)

/-- Read a non-empty all-digit string as a natural number. -/
def strToNat (s : String) : Option Nat := digitsToNat s.toList

/-- Model of `pd.to_datetime(·, errors="coerce")` on one label, covering the
ISO `YYYY-MM-DD` form used by the upstream API; any other label coerces to
`NaT` (`none`).  The encoding `y*10000 + m*100 + d` is monotone in the
calendar order. -/
def toDatetime (s : String) : Option Nat :=
  match strSplit s '-' with
  | [y, m, d] =>
    match strToNat y, strToNat m, strToNat d with
    | some yn, some mn, some dn =>
      if y.toList.length = 4 ∧ 1 ≤ mn ∧ mn ≤ 12 ∧ 1 ≤ dn ∧ dn ≤ 31 then
        some (yn * 10000 + mn * 100 + dn)
      else none
    | _, _, _ => none
  | _ => none

/-- Read an unsigned decimal literal (`123` or `123.45`) as a rational. -/
def parseUnsignedQ (s : String) : Option ℚ :=
  match strSplit s '.' with
  | [a] => (strToNat a).map (fun n => (n : ℚ))
  | [a, b] =>
    match strToNat a, strToNat b with
    | some an, some bn => some ((an : ℚ) + (bn : ℚ) / ((10 : ℚ) ^ b.toList.length))
    | _, _ => none
  | _ => none

/-- Read an optionally signed decimal literal as a rational. -/
def parseSignedQ (s : String) : Option ℚ :=
  match s.toList with
  | '-' :: rest => (parseUnsignedQ (String.mk rest)).map Neg.neg
  | '+' :: rest => parseUnsignedQ (String.mk rest)
  | _ => parseUnsignedQ s

/-- Model of `pd.to_numeric(·, errors="coerce")` on one cell: an
unparsable cell becomes NaN, never an error. -/
def toNumericStr (s : String) : Val :=
  match parseSignedQ s with
  | some q => .num q
  | none => .nan

/-- Model of Python `int(str)`: strips whitespace, accepts an optional
sign and digits, raises `ValueError` otherwise. -/
def pyInt (s : String) : Except String Int :=
  let t := strStrip s
  let core : Option Int :=
    match t.toList with
    | '-' :: rest => (digitsToNat rest).map (fun n => -(n : Int))
    | '+' :: rest => (digitsToNat rest).map (fun n => (n : Int))
    | cs => (digitsToNat cs).map (fun n => (n : Int))
  match core with
  | some i => .ok i
  | none => .error "ValueError: invalid literal for int"

/-- Python list indexing `xs[i]`: negative indices count from the end,
out-of-range raises `IndexError`. -/
def pyListIndex {α : Type} (xs : List α) (i : Int) : Except String α :=
  let j : Int := if i < 0 then i + xs.length else i
  if h : 0 ≤ j ∧ j.toNat < xs.length then .ok (xs.get ⟨j.toNat, h.2⟩)
  else .error "IndexError: list index out of range"

/-- A JSON value, as produced by `json.loads` on the response text.
Objects keep insertion order, as Python dicts do. -/
inductive Json
  | null
  | bool (b : Bool)
  | num (q : ℚ)
  | str (s : String)
  | arr (xs : List Json)
  | obj (kvs : List (String × Json))

/-- Dict lookup (`d.get(k)` / `d[k]` success case). -/
def objGet (kvs : List (String × Json)) (k : String) : Option Json :=
  (kvs.find? (fun kv => kv.1 == k)).map Prod.snd

/-- Python falsiness of a JSON-derived value (`if not x`). -/
def jfalsy : Json → Bool
  | .null => true
  | .bool b => !b
  | .num q => q == 0
  | .str s => s.isEmpty
  | .arr xs => xs.isEmpty
  | .obj kvs => kvs.isEmpty

/-- Coercion of one dict value to float performed by
`pd.Series(dict, dtype=float)`: numbers pass through, `None` becomes NaN,
booleans become 0/1, numeric strings are parsed by `float` (raising on
failure), and structured values raise. -/
def jsonToFloat : Json → Except String Val
  | .num q => .ok (.num q)
  | .null => .ok .nan
  | .bool b => .ok (.num (if b then 1 else 0))
  | .str s =>
    match parseSignedQ s with
    | some q => .ok (.num q)
    | none => .error "ValueError: could not convert string to float"
  | .arr _ => .error "ValueError: setting an array element with a sequence"
  | .obj _ => .error "ValueError: setting an array element with a sequence"

/-- The lookup `js["structure"]["dimensions"]["observation"][0]["values"]`
(line 45): each missing key raises `KeyError`, a non-dict/non-list shape
raises `TypeError`/`IndexError` as Python would. -/
def jPath (top : List (String × Json)) : Except String (List Json) :=
  match objGet top "structure" with
  | none => .error "KeyError: structure"
  | some (.obj stO) =>
    match objGet stO "dimensions" with
    | none => .error "KeyError: dimensions"
    | some (.obj dO) =>
      match objGet dO "observation" with
      | none => .error "KeyError: observation"
      | some (.arr []) => .error "IndexError: list index out of range"
      | some (.arr (.obj d0O :: _)) =>
        match objGet d0O "values" with
        | none => .error "KeyError: values"
        | some (.arr ts) => .ok ts
        | some _ => .error "TypeError: values is not a list"
      | some (.arr (_ :: _)) => .error "TypeError: dimension entry is not a dict"
      | some _ => .error "TypeError: observation is not a list"
    | some _ => .error "TypeError: dimensions is not a dict"
  | some _ => .error "TypeError: structure is not a dict"

/-- The time labels: `[pd.to_datetime(t["id"], errors="coerce") for t in times]`
(line 46).  Each entry must be a dict carrying `"id"`; a label that fails to
parse becomes `NaT` (`none`).  Non-string ids are modelled as coercing to
`NaT`. -/
def timesToIdx (ts : List Json) : Except String (List (Option Nat)) :=
  ts.mapM (fun t =>
    match t with
    | .obj tO =>
      match objGet tO "id" with
      | some (.str s) => .ok (toDatetime s)
      | some _ => .ok (none : Option Nat)
      | none => .error "KeyError: id"
    | _ => .error "TypeError: time entry is not a dict")

/-- The pairs `(idx[int(k)], v[0])` built by the dict comprehension on
line 47, in `obs.items()` order. -/
def jsonEntries (idx : List (Option Nat)) (obs : List (String × Json)) :
    Except String (List (Option Nat × Val)) :=
  obs.mapM (fun kv =>
    match pyInt kv.1 with
    | .error e => .error e
    | .ok i =>
      match pyListIndex idx i with
      | .error e => .error e
      | .ok d =>
        match kv.2 with
        | .arr (v0 :: _) => (jsonToFloat v0).map (fun fv => (d, fv))
        | .arr [] => .error "IndexError: list index out of range"
        | _ => .error "TypeError: value is not subscriptable")

/-- One update step of a Python dict build: a repeated key keeps its first
position and takes the new value (last value wins). -/
def dictUpd (acc : List (Option Nat × Val)) (kv : Option Nat × Val) :
    List (Option Nat × Val) :=
  if acc.any (fun p => p.1 == kv.1) then
    acc.map (fun p => if p.1 == kv.1 then (p.1, kv.2) else p)
  else acc ++ [kv]

/-- Python dict built from a pair list (`{idx[int(k)]: v[0] for ...}`):
insertion order, duplicate keys collapsed last-value-wins. -/
def dictOfPairs (l : List (Option Nat × Val)) : List (Option Nat × Val) :=
  l.foldl dictUpd []

/-- `pd.Series(dict, dtype=float).dropna().sort_index()` (line 47):
the dict dedups keys, `dropna` removes NaN values (it does not touch `NaT`
index labels), `sort_index` sorts ascending with `NaT` last. -/
def seriesFromEntries (es : List (Option Nat × Val)) : SeriesT :=
  sortSeries ((dictOfPairs es).filter (fun p => !(isNA p.2)))

/-- Embedding of `_parse_json` (lines 37-48).  The input is the decoded
JSON document; an `Except.error` models an uncaught Python exception. -/
def _parse_json (js : Json) : Except String SeriesT :=
  match js with
  | .obj top =>
    -- ds = js.get("dataSets", [{}])[0]
    match (objGet top "dataSets").getD (.arr [.obj []]) with
    | .arr [] => .error "IndexError: list index out of range"
    | .arr (ds :: _) =>
      match ds with
      | .obj dsO =>
        -- series = ds.get("series", {});  if not series: return empty
        let seriesJ := (objGet dsO "series").getD (.obj [])
        if jfalsy seriesJ then .ok []
        else
          match seriesJ with
          | .obj ((_, sval) :: _) =>
            -- key = next(iter(series)); obs = series[key].get("observations", {})
            match sval with
            | .obj svO =>
              match (objGet svO "observations").getD (.obj []) with
              | .obj obs =>
                match jPath top with
                | .error e => .error e
                | .ok times =>
                  match timesToIdx times with
                  | .error e => .error e
                  | .ok idx =>
                    match jsonEntries idx obs with
                    | .error e => .error e
                    | .ok es => .ok (seriesFromEntries es)
              | _ => .error "TypeError: observations is not a dict"
            | _ => .error "AttributeError: series entry has no attribute get"
          | _ => .error "TypeError: series is not a dict"
      | _ => .error "AttributeError: dataSets entry has no attribute get"
    | _ => .error "TypeError: dataSets is not a list"
  | _ => .error "AttributeError: document has no attribute get"

/-- Model of `pd.read_csv(io.StringIO(text))`: break into non-blank lines
(blank lines are skipped), the first line is the header, fields split on
commas.  Empty input raises `EmptyDataError`; a row with more fields than
the header raises `ParserError`; a short row is padded with empty cells
(read as NaN). -/
def readCsv (text : String) :
    Except String (List String × List (List String)) :=
  match (strSplit text '\n').filter (fun l => l ≠ "") with
  | [] => .error "EmptyDataError: No columns to parse from file"
  | h :: rest =>
    let header := strSplit h ','
    let rows := rest.map (fun l => strSplit l ',')
    if rows.any (fun r => header.length < r.length) then
      .error "ParserError: too many fields"
    else .ok (header, rows)

/-- The dict `{c.lower(): c for c in df.columns}` looked up at `key`:
the last column whose lowercasing is `key` wins. -/
def colsLookup (header : List String) (key : String) : Option String :=
  (header.filter (fun c => strLower c == key)).getLast?

/-- `cols.get("time_period") or cols.get("date")` (line 53). -/
def csvDateCol (header : List String) : Option String :=
  (colsLookup header "time_period").orElse (fun _ => colsLookup header "date")

/-- `cols.get("obs_value") or cols.get("value") or cols.get("close")`
(line 54). -/
def csvValCol (header : List String) : Option String :=
  ((colsLookup header "obs_value").orElse
    (fun _ => colsLookup header "value")).orElse
    (fun _ => colsLookup header "close")

/-- Embedding of `_parse_csv` (lines 50-59): read the table, resolve the
date and value columns case-insensitively, coerce both columns, drop rows
whose date fails to parse (`dropna(subset=[dcol])` — value NaNs are kept),
then sort by date.  `sort_index` is modelled as a stable sort. -/
def _parse_csv (text : String) : Except String SeriesT :=
  match readCsv text with
  | .error e => .error e
  | .ok (header, rows) =>
    match csvDateCol header, csvValCol header with
    | some dcol, some vcol =>
      let di := header.indexOf dcol
      let vi := header.indexOf vcol
      let prs : SeriesT :=
        rows.map (fun r => (toDatetime (r.getD di ""), toNumericStr (r.getD vi "")))
      .ok (sortSeries (prs.filter (fun p => p.1.isSome)))
    | _, _ => .ok []

/-- The outcome of one HTTP attempt: a raised transport exception, or a
response with status code and body text. -/
inductive GetOut
  | exc (msg : String)
  | resp (status : Nat) (body : String)
deriving DecidableEq

/-- The success test of `_get` (line 29):
`r.status_code == 200 and r.text.strip()`. -/
def isSuccess : GetOut → Bool
  | .exc _ => false
  | .resp st b => st == 200 && !(strStrip b).isEmpty

/-- The failure reason recorded in `last` (lines 31 and 33):
`"HTTP status: text[:180]"` for a response, the exception text for an
exception. -/
def failMsg : GetOut → String
  | .exc m => m
  | .resp st b => "HTTP " ++ toString st ++ ": " ++ String.mk (b.toList.take 180)

/-- The retry loop of `_get` (lines 26-34): `env i` is the outcome of the
i-th HTTP attempt, `n` the remaining tries, `last` the last recorded
failure reason.  Exhaustion raises `RuntimeError(last or "empty response")`
(line 35). -/
def pyGetGo (env : Nat → GetOut) : Nat → Nat → Option String → Except String GetOut
  | 0, _, last => .error (last.getD "empty response")
  | n + 1, i, last =>
    let o := env i
    if isSuccess o then .ok o else pyGetGo env n (i + 1) (some (failMsg o))

/-- Embedding of `_get` (lines 24-35) for a given network environment and
try budget (default 3 in the source).  The fixed `time.sleep(pause)`
between attempts has no observable effect on the value computed and is not
modelled. -/
def _get (env : Nat → GetOut) (tries : Nat) : Except String GetOut :=
  pyGetGo env tries 0 none

/-- One endpoint block of `fetch_series`: `a` is the combined outcome of
`_get` plus the parser at that endpoint (`Except.error` when either
raised), `next` the value of the following block.  A non-empty parse
returns immediately; an exception or an empty parse falls through. -/
def chainStep (a : Except String SeriesT) (next : SeriesT) : SeriesT :=
  match a with
  | .ok s => if s.isEmpty then next else s
  | .error _ => next

/-- Embedding of `fetch_series` (lines 61-98): three prioritized endpoint
attempts (JSON, CSV hyphen spelling, CSV underscore spelling); the first
non-empty series wins; if all fail or parse empty the result is the empty
series (line 98). -/
def fetch_series (a1 a2 a3 : Except String SeriesT) : SeriesT :=
  chainStep a1 (chainStep a2 (chainStep a3 []))

/-- `fetch_series` instrumented with the list of endpoints contacted
(1 = JSON, 2 = CSV hyphen, 3 = CSV underscore), in contact order. -/
def fetchSeriesTrace (a1 a2 a3 : Except String SeriesT) : SeriesT × List Nat :=
  match a1 with
  | .ok s =>
    if s.isEmpty then
      match a2 with
      | .ok s2 =>
        if s2.isEmpty then (chainStep a3 [], [1, 2, 3]) else (s2, [1, 2])
      | .error _ => (chainStep a3 [], [1, 2, 3])
    else (s, [1])
  | .error _ =>
    match a2 with
    | .ok s2 =>
      if s2.isEmpty then (chainStep a3 [], [1, 2, 3]) else (s2, [1, 2])
    | .error _ => (chainStep a3 [], [1, 2, 3])

/-- The 7Y variant choice in `main` (lines 115-117): if either variant has
observations, keep `s7a` unless `s7b` is strictly larger
(`s7a if s7a.size >= s7b.size else s7b`); if both are empty the key is
omitted (`none`). -/
def reconcile7 (s7a s7b : SeriesT) : Option SeriesT :=
  if s7a.length = 0 ∧ s7b.length = 0 then none
  else some (if s7b.length ≤ s7a.length then s7a else s7b)

/-- Does a key list contain a repeated key? -/
def hasDups : List (Option Nat) → Bool
  | [] => false
  | d :: ds => decide (d ∈ ds) || hasDups ds

/-- Does a Series have a repeated index label? -/
def hasDupKeys (s : SeriesT) : Bool := hasDups (s.map Prod.fst)

/-- The assembled table: one column name per series key, rows as
(date, cells) with cells in column order. -/
structure Frame where
  cols : List String
  rows : List (Option Nat × List Val)
deriving DecidableEq

/-- The cell of the outer join at date `d` for series `s`: the series
value when the series carries the date, NaN (pandas missing marker)
otherwise. -/
def cellVal (d : Option Nat) (s : SeriesT) : Val :=
  match s.find? (fun p => p.1 == d) with
  | some p => p.2
  | none => .nan

/-- Add a key to the accumulated union, keeping first-occurrence order. -/
def addKey (acc : List (Option Nat)) (d : Option Nat) : List (Option Nat) :=
  if d ∈ acc then acc else acc ++ [d]

/-- The union of the date indices of all series, first occurrence first
(the row index built by the `pd.DataFrame(got)` outer join). -/
def unionKeys (got : List (String × SeriesT)) : List (Option Nat) :=
  got.foldl (fun acc p => (p.2.map Prod.fst).foldl addKey acc) []

/-- `pd.DataFrame(got)` before sorting: columns in dict order, one row per
index value of the union, cells by lookup with NaN for missing. -/
def mkFrame (got : List (String × SeriesT)) : Frame :=
  ⟨got.map Prod.fst,
    (unionKeys got).map (fun d => (d, got.map (fun p => cellVal d p.2)))⟩

/-- `.sort_index()` on the frame: stable sort of the rows by date. -/
def sortFrameRows (f : Frame) : Frame :=
  ⟨f.cols, List.insertionSort idxLE f.rows⟩

/-- `.dropna(how="all")`: drop every row whose cells are all NaN. -/
def dropAllNA (f : Frame) : Frame :=
  ⟨f.cols, f.rows.filter (fun r => !(r.2.all isNA))⟩

/-- The assembly `pd.DataFrame(got).sort_index().dropna(how="all")`
(line 123).  When more than one series is present and some series carries
a duplicate index label, `pd.DataFrame` raises
(`cannot reindex on an axis with duplicates`); the corner case of several
series with identical duplicated indices, where pandas skips the reindex,
is not modelled. -/
def assembleCurve (got : List (String × SeriesT)) : Except String Frame :=
  if 1 < got.length ∧ got.any (fun p => hasDupKeys p.2) then
    .error "ValueError: cannot reindex on an axis with duplicates"
  else .ok (dropAllNA (sortFrameRows (mkFrame got)))

/-- The observable outcome of one run of `main`: abort with exit status 2
because the anchor is empty (line 107), abort with exit status 2 because
nothing was fetched (line 121), crash on an uncaught exception, or write
the assembled curve (line 126).  Only `wrote` produces an output file. -/
inductive RunResult
  | exitNoAnchor
  | exitNoSeries
  | crashed (msg : String)
  | wrote (f : Frame)
deriving DecidableEq

/-- The non-anchor single-code series of `main` (line 110). -/
def otherLabels : List (String × String) :=
  [("2Y", "WT0202"), ("5Y", "WT0505"), ("15Y", "WT1515"), ("30Y", "WT3030")]

/-- The mapping `got` accumulated by `main` (lines 101-117) in insertion
order: the anchor first, then each non-empty single-code series, then the
reconciled 7Y variant when present. -/
def gotOf (fetch : String → SeriesT) : List (String × SeriesT) :=
  let others := otherLabels.filterMap
    (fun p => let s := fetch p.2; if s.isEmpty then none else some (p.1, s))
  let got := ("10Y", fetch "WT1010") :: others
  match reconcile7 (fetch "WT0707") (fetch "WT7070") with
  | some s => got ++ [("7Y", s)]
  | none => got

/-- Embedding of `main` (lines 100-127).  `fetch code` is the series that
`fetch_series(code)` returns under the ambient network environment (a
total function: `fetch_series` never raises).  Directory creation and the
CSV write are the I/O boundary; `wrote` carries the frame that line 126
persists. -/
def mainRun (fetch : String → SeriesT) : RunResult :=
  if (fetch "WT1010").isEmpty then .exitNoAnchor
  else if (gotOf fetch).isEmpty then .exitNoSeries
  else
    match assembleCurve (gotOf fetch) with
    | .error e => .crashed e
    | .ok f => .wrote f

/-- The Series invariant declared by the spec's data model: dates strictly
increasing (hence unique) and no `NaT` labels. -/
def SeriesWF (s : SeriesT) : Prop :=
  List.Pairwise (fun a b => keyLTb a.1 b.1 = true) s ∧ ∀ p ∈ s, p.1.isSome = true

/-- A dimensional-JSON document with a data series but no `"structure"`
block. -/
def jsonNoStructure : Json :=
  .obj [("dataSets", .arr [.obj [("series",
    .obj [("0", .obj [("observations", .obj [("0", .arr [.num 1])])])])]])]

/-- A dimensional-JSON document whose single period label does not parse
as a date. -/
def jsonBadDate : Json :=
  .obj [("dataSets", .arr [.obj [("series",
      .obj [("0", .obj [("observations", .obj [("0", .arr [.num 1])])])])]]),
    ("structure", .obj [("dimensions", .obj [("observation",
      .arr [.obj [("values", .arr [.obj [("id", .str "notadate")]])]])])])]

/-- A well-formed dimensional-JSON document with two periods, observation
keys out of order and a repeated observation key. -/
def jsonGood : Json :=
  .obj [("dataSets", .arr [.obj [("series",
      .obj [("0", .obj [("observations", .obj
        [("1", .arr [.num 5]), ("0", .arr [.num 7]),
         ("0", .arr [.str "9"])])])])]]),
    ("structure", .obj [("dimensions", .obj [("observation",
      .arr [.obj [("values", .arr
        [.obj [("id", .str "2024-01-02")],
         .obj [("id", .str "2024-01-01")]])]])])])]

/-- A CSV fixture that repeats a date. -/
def csvDupDates : String := "TIME_PERIOD,OBS_VALUE\n2024-01-01,1\n2024-01-01,2"

/-- A CSV fixture whose single value cell is unparsable. -/
def csvBadValue : String := "TIME_PERIOD,OBS_VALUE\n2024-01-02,abc"

/-- A CSV fixture with alternate column spellings, an unparsable date row
and out-of-order dates. -/
def csvGood : String := "date,close\n2024-01-05,6\nbad,1\n2024-01-03,4"

/-- A concrete fetch environment: only the anchor code resolves. -/
def fetchOnlyAnchor : String → SeriesT :=
  fun c => if c = "WT1010" then [(some 20240101, Val.num 2)] else []

/-- A concrete fetch environment with an empty anchor. -/
def fetchNoAnchor : String → SeriesT :=
  fun c => if c = "WT0202" then [(some 20240101, Val.num 1)] else []

/-- A concrete fetch environment where the 7Y variants tie at one point
each. -/
def fetchWith7Y : String → SeriesT :=
  fun c =>
    if c = "WT1010" then [(some 20240101, Val.num 2)]
    else if c = "WT0707" then [(some 20240102, Val.num 3)]
    else if c = "WT7070" then [(some 20240103, Val.num 4)]
    else []

/-- A concrete network environment: one failing attempt, then success. -/
def netFailThenOk : Nat → GetOut :=
  fun i => if i = 0 then .resp 500 "boom" else .resp 200 "payload"

/-- A concrete network environment that always returns 404. -/
def netAll404 : Nat → GetOut := fun _ => .resp 404 "notfound"

/-- The spec's assembler example: 10Y has two dates, 2Y only the second. -/
def gotSpecExample : List (String × SeriesT) :=
  [("10Y", [(some 20240101, Val.num 2), (some 20240102, Val.num (21/10))]),
   ("2Y", [(some 20240102, Val.num (3/2))])]

/-- The frame `main` writes under `fetchOnlyAnchor`. -/
def frameAnchor : Frame := ⟨["10Y"], [(some 20240101, [Val.num 2])]⟩

/-- The frame `main` writes under `fetchWith7Y`. -/
def frame7Y : Frame :=
  ⟨["10Y", "7Y"],
   [(some 20240101, [Val.num 2, Val.nan]),
    (some 20240102, [Val.nan, Val.num 3])]⟩

/-! ## Helper lemmas -/

theorem keyLTb_of_keyLEb_ne {x y : Option Nat} (hle : keyLEb x y = true)
    (hne : x ≠ y) : keyLTb x y = true := by
  rcases x with - | a <;> rcases y with - | b <;>
    simp_all [keyLEb, keyLTb, Nat.ble_eq, Nat.blt_eq] <;> omega

theorem ne_of_keyLTb {x y : Option Nat} (h : keyLTb x y = true) : x ≠ y := by
  rcases x with - | a <;> rcases y with - | b <;>
    simp_all [keyLTb, Nat.blt_eq] <;> omega

theorem dictUpd_keys_nodup {acc : List (Option Nat × Val)}
    {kv : Option Nat × Val} (h : (acc.map Prod.fst).Nodup) :
    ((dictUpd acc kv).map Prod.fst).Nodup := by
  unfold dictUpd
  split
  · have he : (acc.map (fun p => if p.1 == kv.1 then (p.1, kv.2) else p)).map
        Prod.fst = acc.map Prod.fst := by
      rw [List.map_map]
      apply List.map_congr_left
      intro p _
      by_cases hp : p.1 = kv.1 <;> simp [hp]
    rw [he]; exact h
  · rename_i hnone
    have hnm : kv.1 ∉ acc.map Prod.fst := by
      intro hm
      rcases List.mem_map.1 hm with ⟨p, hp, hpe⟩
      exact hnone (List.any_eq_true.2 ⟨p, hp, by simp [hpe]⟩)
    simp only [List.map_append, List.map_cons, List.map_nil]
    simp [List.nodup_append, h, hnm]

theorem dictOfPairs_keys_nodup (es : List (Option Nat × Val)) :
    ((dictOfPairs es).map Prod.fst).Nodup := by
  suffices h : ∀ acc : List (Option Nat × Val), (acc.map Prod.fst).Nodup →
      (((es.foldl dictUpd acc)).map Prod.fst).Nodup by
    exact h [] (by simp)
  induction es with
  | nil => intro acc h; simpa using h
  | cons e es ih =>
    intro acc h
    simpa using ih _ (dictUpd_keys_nodup h)

theorem perm_sortIdx {β : Type} (l : List (Option Nat × β)) :
    List.Perm (List.insertionSort idxLE l) l := List.perm_insertionSort _ _

theorem sorted_sortIdx {β : Type} (l : List (Option Nat × β)) :
    List.Sorted idxLE (List.insertionSort idxLE l) :=
  List.sorted_insertionSort _ _

theorem keys_nodup_sortIdx {β : Type} {l : List (Option Nat × β)}
    (h : (l.map Prod.fst).Nodup) :
    ((List.insertionSort idxLE l).map Prod.fst).Nodup :=
  (((perm_sortIdx l).map Prod.fst).nodup_iff).2 h

theorem pairwise_lt_of_sorted_nodup {β : Type} {l : List (Option Nat × β)}
    (hs : List.Sorted idxLE l) (hn : (l.map Prod.fst).Nodup) :
    List.Pairwise (fun a b => keyLTb a.1 b.1 = true) l := by
  have hne : List.Pairwise (fun a b : Option Nat × β => a.1 ≠ b.1) l :=
    List.pairwise_map.1 hn
  exact (hs.and hne).imp (fun h => keyLTb_of_keyLEb_ne h.1 h.2)

theorem keys_nodup_of_pairwise_lt {β : Type} {l : List (Option Nat × β)}
    (h : List.Pairwise (fun a b => keyLTb a.1 b.1 = true) l) :
    (l.map Prod.fst).Nodup := by
  rw [List.Nodup, List.pairwise_map]
  exact h.imp (fun hab => ne_of_keyLTb hab)

theorem countP_none_le_one {l : List (Option Nat × Val)}
    (h : (l.map Prod.fst).Nodup) :
    l.countP (fun p => p.1 == none) ≤ 1 := by
  induction l with
  | nil => simp
  | cons p l ih =>
    simp only [List.map_cons, List.nodup_cons] at h
    rw [List.countP_cons]
    by_cases hp : p.1 = none
    · have h0 : l.countP (fun p => p.1 == none) = 0 := by
        rw [List.countP_eq_zero]
        intro q hq
        simp only [beq_iff_eq]
        intro hqn
        exact h.1 (hp ▸ hqn ▸ List.mem_map_of_mem Prod.fst hq)
      simp [hp, h0]
    · simpa [hp] using ih h.2

theorem hasDups_eq_false_iff {ks : List (Option Nat)} :
    hasDups ks = false ↔ ks.Nodup := by
  induction ks with
  | nil => simp [hasDups]
  | cons d ds ih => simp [hasDups, List.nodup_cons, ih]

theorem seriesFromEntries_sorted (es : List (Option Nat × Val)) :
    List.Sorted idxLE (seriesFromEntries es) := sorted_sortIdx _

theorem seriesFromEntries_keys_nodup (es : List (Option Nat × Val)) :
    ((seriesFromEntries es).map Prod.fst).Nodup := by
  apply keys_nodup_sortIdx
  have hsub : List.Sublist
      (((dictOfPairs es).filter (fun p => !(isNA p.2))).map Prod.fst)
      ((dictOfPairs es).map Prod.fst) :=
    (List.filter_sublist _).map Prod.fst
  exact hsub.nodup (dictOfPairs_keys_nodup es)

theorem seriesFromEntries_no_nan {es : List (Option Nat × Val)}
    {p : Option Nat × Val} (hp : p ∈ seriesFromEntries es) :
    isNA p.2 = false := by
  have : p ∈ (dictOfPairs es).filter (fun p => !(isNA p.2)) :=
    ((perm_sortIdx _).mem_iff).1 hp
  have := (List.mem_filter.1 this).2
  simpa using this

theorem parse_json_shape {js : Json} {l : SeriesT} (h : _parse_json js = .ok l) :
    l = [] ∨ ∃ es, l = seriesFromEntries es := by
  unfold _parse_json at h
  repeat'
    first
      | exact Except.noConfusion h
      | (rw [Except.ok.injEq] at h; exact Or.inl h.symm)
      | (rw [Except.ok.injEq] at h; exact Or.inr ⟨_, h.symm⟩)
      | split at h
      | (dsimp only at h)

theorem parse_csv_eq {t : String} {hd : List String} {rs : List (List String)}
    {dcol vcol : String} (h1 : readCsv t = .ok (hd, rs))
    (h2 : csvDateCol hd = some dcol) (h3 : csvValCol hd = some vcol) :
    _parse_csv t = .ok (sortSeries (((rs.map (fun r =>
      ((toDatetime (r.getD (hd.indexOf dcol) "") : Option Nat),
        toNumericStr (r.getD (hd.indexOf vcol) ""))))).filter
      (fun p => p.1.isSome))) := by
  unfold _parse_csv
  rw [h1]
  simp [h2, h3]

theorem parse_csv_shape {t : String} {l : SeriesT} (h : _parse_csv t = .ok l) :
    l = [] ∨ ∃ prs : SeriesT, l = sortSeries (prs.filter (fun p => p.1.isSome)) := by
  unfold _parse_csv at h
  repeat'
    first
      | exact Except.noConfusion h
      | (rw [Except.ok.injEq] at h; exact Or.inl h.symm)
      | (rw [Except.ok.injEq] at h; exact Or.inr ⟨_, h.symm⟩)
      | split at h
      | (dsimp only at h)

theorem mem_addKey {acc : List (Option Nat)} {d x : Option Nat} :
    x ∈ addKey acc d ↔ x ∈ acc ∨ x = d := by
  unfold addKey
  split <;> rename_i hd
  · constructor
    · exact Or.inl
    · rintro (h | rfl)
      · exact h
      · exact hd
  · simp

theorem nodup_addKey {acc : List (Option Nat)} {d : Option Nat}
    (h : acc.Nodup) : (addKey acc d).Nodup := by
  unfold addKey
  split <;> rename_i hd
  · exact h
  · simp [List.nodup_append, h, hd]

theorem mem_foldl_addKey (ks : List (Option Nat)) :
    ∀ acc x, x ∈ ks.foldl addKey acc ↔ x ∈ acc ∨ x ∈ ks := by
  induction ks with
  | nil => simp
  | cons k ks ih =>
    intro acc x
    rw [List.foldl_cons, ih, mem_addKey]
    simp
    tauto

theorem nodup_foldl_addKey (ks : List (Option Nat)) :
    ∀ acc : List (Option Nat), acc.Nodup → (ks.foldl addKey acc).Nodup := by
  induction ks with
  | nil => intro acc h; simpa using h
  | cons k ks ih =>
    intro acc h
    rw [List.foldl_cons]
    exact ih _ (nodup_addKey h)

theorem mem_unionKeys {got : List (String × SeriesT)} {x : Option Nat} :
    x ∈ unionKeys got ↔ ∃ p ∈ got, x ∈ p.2.map Prod.fst := by
  unfold unionKeys
  suffices h : ∀ acc, x ∈ got.foldl
      (fun acc p => (p.2.map Prod.fst).foldl addKey acc) acc ↔
      x ∈ acc ∨ ∃ p ∈ got, x ∈ p.2.map Prod.fst by
    simpa using h []
  induction got with
  | nil => simp
  | cons g gs ih =>
    intro acc
    rw [List.foldl_cons, ih, mem_foldl_addKey]
    simp
    tauto

theorem unionKeys_nodup (got : List (String × SeriesT)) :
    (unionKeys got).Nodup := by
  unfold unionKeys
  suffices h : ∀ acc : List (Option Nat), acc.Nodup → (got.foldl
      (fun acc p => (p.2.map Prod.fst).foldl addKey acc) acc).Nodup by
    simpa using h [] (by simp)
  induction got with
  | nil => intro acc h; simpa using h
  | cons g gs ih =>
    intro acc h
    rw [List.foldl_cons]
    exact ih _ (nodup_foldl_addKey _ _ h)

theorem cellVal_of_mem {s : SeriesT} {d : Option Nat} {v : Val}
    (hn : (s.map Prod.fst).Nodup) (hm : (d, v) ∈ s) : cellVal d s = v := by
  induction s with
  | nil => cases hm
  | cons p s ih =>
    simp only [List.map_cons, List.nodup_cons] at hn
    rcases List.mem_cons.1 hm with rfl | hm'
    · simp [cellVal]
    · have hne : ¬(p.1 = d) := by
        intro he
        exact hn.1 (he ▸ (List.mem_map_of_mem Prod.fst hm' : d ∈ s.map Prod.fst))
      have : cellVal d s = v := ih hn.2 hm'
      simpa [cellVal, List.find?_cons, hne] using this

theorem cellVal_of_not_mem {s : SeriesT} {d : Option Nat}
    (h : d ∉ s.map Prod.fst) : cellVal d s = .nan := by
  unfold cellVal
  have hf : s.find? (fun p => p.1 == d) = none := by
    rw [List.find?_eq_none]
    intro p hp
    simp only [beq_iff_eq]
    intro he
    exact h (he ▸ List.mem_map_of_mem Prod.fst hp)
  rw [hf]

theorem reconcile7_cases {a b s : SeriesT} (h : reconcile7 a b = some s) :
    s = a ∨ s = b := by
  unfold reconcile7 at h
  split at h
  · cases h
  · rw [Option.some_inj] at h
    split at h
    · exact Or.inl h.symm
    · exact Or.inr h.symm

theorem filterMap_label {l : List (String × String)} {fetch : String → SeriesT}
    {x : String}
    (h : x ∈ (l.filterMap (fun p =>
      let s := fetch p.2; if s.isEmpty then none else some (p.1, s))).map Prod.fst) :
    x ∈ l.map Prod.fst := by
  rcases List.mem_map.1 h with ⟨r, hr, hre⟩
  rcases List.mem_filterMap.1 hr with ⟨q, hq, hqe⟩
  dsimp only at hqe
  split at hqe
  · cases hqe
  · rw [Option.some_inj] at hqe
    subst hqe
    exact hre ▸ List.mem_map_of_mem Prod.fst hq

theorem mem_filterMap_labels {fetch : String → SeriesT}
    {p : String × SeriesT} {l : List (String × String)}
    (hp : p ∈ l.filterMap (fun q =>
      let s := fetch q.2; if s.isEmpty then none else some (q.1, s))) :
    ∃ q ∈ l, p = (q.1, fetch q.2) := by
  rcases List.mem_filterMap.1 hp with ⟨q, hq, hqe⟩
  refine ⟨q, hq, ?_⟩
  dsimp only at hqe
  split at hqe
  · cases hqe
  · rw [Option.some_inj] at hqe
    exact hqe.symm

theorem gotOf_ne_nil (fetch : String → SeriesT) : gotOf fetch ≠ [] := by
  unfold gotOf
  split <;> simp

theorem mem_gotOf_snd {fetch : String → SeriesT} {p : String × SeriesT}
    (hp : p ∈ gotOf fetch) : ∃ code, p.2 = fetch code := by
  unfold gotOf at hp
  have base : ∀ {q : String × SeriesT},
      q ∈ ("10Y", fetch "WT1010") :: otherLabels.filterMap (fun r =>
        let s := fetch r.2; if s.isEmpty then none else some (r.1, s)) →
      ∃ code, q.2 = fetch code := by
    intro q hq
    rcases List.mem_cons.1 hq with rfl | hq'
    · exact ⟨"WT1010", rfl⟩
    · rcases mem_filterMap_labels hq' with ⟨r, -, rfl⟩
      exact ⟨r.2, rfl⟩
  split at hp <;> rename_i hrec
  · rcases List.mem_append.1 hp with hp' | hp'
    · exact base hp'
    · simp only [List.mem_singleton] at hp'
      subst hp'
      rcases reconcile7_cases hrec with h7 | h7
      · exact ⟨"WT0707", h7⟩
      · exact ⟨"WT7070", h7⟩
  · exact base hp

theorem anchor_mem_gotOf (fetch : String → SeriesT) :
    "10Y" ∈ (gotOf fetch).map Prod.fst := by
  unfold gotOf
  split <;> simp

theorem sevenY_mem_gotOf_iff (fetch : String → SeriesT) :
    "7Y" ∈ (gotOf fetch).map Prod.fst ↔
      (reconcile7 (fetch "WT0707") (fetch "WT7070")).isSome = true := by
  have habs : ¬ ("7Y" ∈ (("10Y", fetch "WT1010") :: otherLabels.filterMap (fun r =>
      let s := fetch r.2;
      if s.isEmpty then none else some (r.1, s))).map Prod.fst) := by
    intro hm
    rw [List.map_cons, List.mem_cons] at hm
    rcases hm with h | h
    · exact (show ¬ ("7Y" : String) = "10Y" by decide) h
    · have h2 := filterMap_label h
      revert h2
      decide
  cases hr : reconcile7 (fetch "WT0707") (fetch "WT7070") with
  | some s =>
    unfold gotOf
    simp only [hr, Option.isSome_some, iff_true]
    exact List.mem_map_of_mem Prod.fst
      (List.mem_append_right _ (List.mem_singleton_self _))
  | none =>
    unfold gotOf
    simp only [hr, Option.isSome_none]
    constructor
    · intro hm
      exact absurd hm habs
    · intro hf
      exact absurd hf (by decide)

theorem assembleCurve_ok_of_nodup {got : List (String × SeriesT)}
    (h : ∀ p ∈ got, hasDupKeys p.2 = false) :
    assembleCurve got = .ok (dropAllNA (sortFrameRows (mkFrame got))) := by
  unfold assembleCurve
  rw [if_neg]
  rintro ⟨-, hany⟩
  rcases List.any_eq_true.1 hany with ⟨p, hp, hdup⟩
  rw [h p hp] at hdup
  cases hdup

theorem assembleCurve_ok_eq {got : List (String × SeriesT)} {f : Frame}
    (h : assembleCurve got = .ok f) :
    f = dropAllNA (sortFrameRows (mkFrame got)) := by
  unfold assembleCurve at h
  split at h
  · cases h
  · rw [Except.ok.injEq] at h
    exact h.symm

theorem mkFrame_rows_keys (got : List (String × SeriesT)) :
    (mkFrame got).rows.map Prod.fst = unionKeys got := by
  unfold mkFrame
  rw [List.map_map]
  have h : ∀ d ∈ unionKeys got,
      (Prod.fst ∘ fun d => (d, got.map (fun p => cellVal d p.2))) d = id d :=
    fun d _ => rfl
  rw [List.map_congr_left h, List.map_id]

theorem mainRun_eq_wrote {fetch : String → SeriesT} {f : Frame}
    (h : mainRun fetch = .wrote f) :
    assembleCurve (gotOf fetch) = .ok f := by
  unfold mainRun at h
  split at h
  · cases h
  · split at h
    · cases h
    · split at h <;> rename_i heq
      · cases h
      · rw [RunResult.wrote.injEq] at h
        rw [h] at heq
        exact heq

/-! ## Claim theorems -/

/-- Claim C2: for every series code, the endpoint chain returns the first
non-empty parsed Series and contacts no later endpoint after such a
success; if every endpoint fails or parses empty, it returns the empty
Series instead of raising.  `a1 a2 a3` are the combined `_get`+parse
outcomes of the three endpoints; the trace lists the endpoints
contacted. -/
theorem claim_C2_endpoint_chain (a1 a2 a3 : Except String SeriesT) :
    (∀ s : SeriesT, a1 = .ok s → s ≠ [] → fetchSeriesTrace a1 a2 a3 = (s, [1])) ∧
    (∀ s : SeriesT, (a1 = .ok [] ∨ ∃ e, a1 = .error e) → a2 = .ok s → s ≠ [] →
      fetchSeriesTrace a1 a2 a3 = (s, [1, 2])) ∧
    (∀ s : SeriesT, (a1 = .ok [] ∨ ∃ e, a1 = .error e) →
      (a2 = .ok [] ∨ ∃ e, a2 = .error e) → a3 = .ok s → s ≠ [] →
      fetchSeriesTrace a1 a2 a3 = (s, [1, 2, 3])) ∧
    ((a1 = .ok [] ∨ ∃ e, a1 = .error e) → (a2 = .ok [] ∨ ∃ e, a2 = .error e) →
      (a3 = .ok [] ∨ ∃ e, a3 = .error e) → fetchSeriesTrace a1 a2 a3 = ([], [1, 2, 3])) ∧
    (fetchSeriesTrace a1 a2 a3).1 = fetch_series a1 a2 a3 := by
  refine ⟨?_, ?_, ?_, ?_, ?_⟩
  · rintro s rfl hne
    simp [fetchSeriesTrace, hne]
  · rintro s h1 rfl hne
    rcases h1 with rfl | ⟨e, rfl⟩ <;> simp [fetchSeriesTrace, hne]
  · rintro s h1 h2 rfl hne
    rcases h1 with rfl | ⟨e, rfl⟩ <;> rcases h2 with rfl | ⟨e2, rfl⟩ <;>
      simp [fetchSeriesTrace, chainStep, hne]
  · rintro h1 h2 h3
    rcases h1 with rfl | ⟨e, rfl⟩ <;> rcases h2 with rfl | ⟨e2, rfl⟩ <;>
      rcases h3 with rfl | ⟨e3, rfl⟩ <;> simp [fetchSeriesTrace, chainStep]
  · rcases a1 with e1 | s1 <;> rcases a2 with e2 | s2 <;>
      rcases a3 with e3 | s3 <;>
      simp only [fetchSeriesTrace, fetch_series, chainStep] <;>
      split_ifs <;> rfl

/-- Claim C2 witness: a non-empty first parse short-circuits with trace
`[1]`; three failures return the empty series with trace `[1,2,3]`. -/
theorem claim_C2_witness :
    fetchSeriesTrace (.ok [(some 20240101, Val.num 1)]) (.error "boom") (.ok [])
      = ([(some 20240101, Val.num 1)], [1]) ∧
    fetchSeriesTrace (.ok []) (.error "boom") (.error "bust") = ([], [1, 2, 3]) :=
  ⟨(claim_C2_endpoint_chain _ _ _).1 _ rfl (by decide),
   (claim_C2_endpoint_chain _ _ _).2.2.2.1 (Or.inl rfl)
     (Or.inr ⟨"boom", rfl⟩) (Or.inr ⟨"bust", rfl⟩)⟩

/-- Claim C3 counterexample: `_parse_json` raises `KeyError` on a document
that has a data series but no `"structure"` block (line 45 of the source
indexes `js["structure"]` unguarded), refuting "never throws on
malformed or unrecognized input". -/
theorem claim_C3_counterexample :
    _parse_json jsonNoStructure = .error "KeyError: structure" := by decide

/-- Claim C3 (amended): the parsers may raise on unrecognized input; such
an exception is caught by `fetch_series` and treated exactly like an empty
Series, at every position of the chain. -/
theorem claim_C3_parser_error_soft (e : String) :
    (∀ a2 a3, fetch_series (.error e) a2 a3 = fetch_series (.ok []) a2 a3) ∧
    (∀ a1 a3, fetch_series a1 (.error e) a3 = fetch_series a1 (.ok []) a3) ∧
    (∀ a1 a2, fetch_series a1 a2 (.error e) = fetch_series a1 a2 (.ok [])) :=
  ⟨fun _ _ => rfl, fun _ _ => rfl, fun _ _ => rfl⟩

/-- Claim C7: the 7Y reconciliation picks the variant with more
observations, prefers the first-listed variant `WT0707` on ties, and when
both variants are empty the `"7Y"` key is absent from the written curve's
columns (and present exactly when a variant had data). -/
theorem claim_C7_variant_reconciler :
    (∀ a b : SeriesT,
      (b.length < a.length → reconcile7 a b = some a) ∧
      (a.length = b.length → a ≠ [] → reconcile7 a b = some a) ∧
      (a.length < b.length → reconcile7 a b = some b) ∧
      (a = [] → b = [] → reconcile7 a b = none)) ∧
    (∀ (fetch : String → SeriesT) (f : Frame), mainRun fetch = .wrote f →
      ("7Y" ∈ f.cols ↔
        (reconcile7 (fetch "WT0707") (fetch "WT7070")).isSome = true)) := by
  constructor
  · intro a b
    refine ⟨?_, ?_, ?_, ?_⟩
    · intro h
      unfold reconcile7
      rw [if_neg (by omega), if_pos (by omega)]
    · intro h hne
      have : a.length ≠ 0 := by
        intro h0
        exact hne (List.length_eq_zero.1 h0)
      unfold reconcile7
      rw [if_neg (by omega), if_pos (by omega)]
    · intro h
      unfold reconcile7
      rw [if_neg (by omega), if_neg (by omega)]
    · rintro rfl rfl
      rfl
  · intro fetch f hf
    have h1 := assembleCurve_ok_eq (mainRun_eq_wrote hf)
    rw [h1]
    exact sevenY_mem_gotOf_iff fetch

/-- Claim C7 witness: larger variant wins, ties go to the first variant,
both-empty yields no entry, and under `fetchWith7Y` (a tie) the written
curve has a `"7Y"` column. -/
theorem claim_C7_witness :
    reconcile7 [(some 1, Val.num 1), (some 2, Val.num 2)] [(some 3, Val.num 3)]
      = some [(some 1, Val.num 1), (some 2, Val.num 2)] ∧
    reconcile7 [(some 1, Val.num 1)] [(some 2, Val.num 2)]
      = some [(some 1, Val.num 1)] ∧
    reconcile7 [] [(some 2, Val.num 2)] = some [(some 2, Val.num 2)] ∧
    reconcile7 [] [] = none ∧
    "7Y" ∈ frame7Y.cols :=
  ⟨(claim_C7_variant_reconciler.1 _ _).1 (by decide),
   (claim_C7_variant_reconciler.1 _ _).2.1 (by decide) (by decide),
   (claim_C7_variant_reconciler.1 _ _).2.2.1 (by decide),
   (claim_C7_variant_reconciler.1 _ _).2.2.2 rfl rfl,
   (claim_C7_variant_reconciler.2 fetchWith7Y frame7Y (by decide)).mpr (by decide)⟩

theorem pyGetGo_ok_iff (env : Nat → GetOut) :
    ∀ (n i : Nat) (last : Option String),
      (∃ r, pyGetGo env n i last = .ok r) ↔
        ∃ j, j < n ∧ isSuccess (env (i + j)) = true := by
  intro n
  induction n with
  | zero =>
    intro i last
    simp [pyGetGo]
  | succ n ih =>
    intro i last
    unfold pyGetGo
    dsimp only
    split <;> rename_i hs
    · constructor
      · intro _
        exact ⟨0, Nat.succ_pos n, by simpa using hs⟩
      · intro _
        exact ⟨env i, rfl⟩
    · rw [ih]
      constructor
      · rintro ⟨j, hj, hsj⟩
        refine ⟨j + 1, by omega, ?_⟩
        have he : i + (j + 1) = i + 1 + j := by omega
        rw [he]
        exact hsj
      · rintro ⟨j, hj, hsj⟩
        cases j with
        | zero =>
          rw [Nat.add_zero] at hsj
          exact absurd hsj hs
        | succ j =>
          refine ⟨j, by omega, ?_⟩
          have he : i + 1 + j = i + (j + 1) := by omega
          rw [he]
          exact hsj

theorem pyGetGo_first (env : Nat → GetOut) :
    ∀ (n i : Nat) (last : Option String) (k : Nat), k < n →
      isSuccess (env (i + k)) = true →
      (∀ j, j < k → isSuccess (env (i + j)) = false) →
      pyGetGo env n i last = .ok (env (i + k)) := by
  intro n
  induction n with
  | zero =>
    intro i last k hk
    exact absurd hk (Nat.not_lt_zero k)
  | succ n ih =>
    intro i last k hk hsk hprev
    unfold pyGetGo
    dsimp only
    split <;> rename_i hs
    · cases k with
      | zero => rw [Nat.add_zero]
      | succ k =>
        have h0 := hprev 0 (Nat.succ_pos k)
        rw [Nat.add_zero] at h0
        simp [h0] at hs
    · cases k with
      | zero =>
        rw [Nat.add_zero] at hsk
        exact absurd hsk hs
      | succ k =>
        have h1 : isSuccess (env (i + 1 + k)) = true := by
          have he : i + 1 + k = i + (k + 1) := by omega
          rw [he]
          exact hsk
        have h2 : ∀ j, j < k → isSuccess (env (i + 1 + j)) = false := by
          intro j hj
          have he : i + 1 + j = i + (j + 1) := by omega
          rw [he]
          exact hprev (j + 1) (by omega)
        have h3 := ih (i + 1) (some (failMsg (env i))) k (by omega) h1 h2
        rw [h3]
        have he : i + 1 + k = i + (k + 1) := by omega
        rw [he]

theorem pyGetGo_fail (env : Nat → GetOut) :
    ∀ (n i : Nat) (last : Option String), 0 < n →
      (∀ j, j < n → isSuccess (env (i + j)) = false) →
      pyGetGo env n i last = .error (failMsg (env (i + (n - 1)))) := by
  intro n
  induction n with
  | zero =>
    intro i last h
    exact absurd h (by omega)
  | succ n ih =>
    intro i last _ hall
    unfold pyGetGo
    dsimp only
    split <;> rename_i hs
    · have h0 := hall 0 (Nat.succ_pos n)
      rw [Nat.add_zero] at h0
      simp [h0] at hs
    · cases n with
      | zero =>
        show Except.error (failMsg (env i)) = _
        rw [Nat.sub_self, Nat.add_zero]
      | succ n =>
        have h2 : ∀ j, j < n + 1 → isSuccess (env (i + 1 + j)) = false := by
          intro j hj
          have he : i + 1 + j = i + (j + 1) := by omega
          rw [he]
          exact hall (j + 1) (by omega)
        have h3 := ih (i + 1) (some (failMsg (env i))) (Nat.succ_pos n) h2
        rw [h3]
        have he : i + 1 + (n + 1 - 1) = i + (n + 1 + 1 - 1) := by omega
        rw [he]

/-- Claim C8: `_get` returns a response exactly when some attempt within
the try budget yields HTTP 200 with a non-whitespace body (and then it
returns the first such response, making no further attempts); if every
attempt fails, the call raises `RuntimeError` carrying the failure reason
recorded for the last attempt.  The fixed `time.sleep` pause between
attempts is timing-only and outside the model. -/
theorem claim_C8_http_retrier (env : Nat → GetOut) (tries : Nat) :
    ((∃ r, _get env tries = .ok r) ↔ ∃ i, i < tries ∧ isSuccess (env i) = true) ∧
    (∀ k, k < tries → isSuccess (env k) = true →
      (∀ j, j < k → isSuccess (env j) = false) → _get env tries = .ok (env k)) ∧
    ((∀ i, i < tries → isSuccess (env i) = false) → 0 < tries →
      _get env tries = .error (failMsg (env (tries - 1)))) := by
  refine ⟨?_, ?_, ?_⟩
  · have h := pyGetGo_ok_iff env tries 0 none
    simpa [_get] using h
  · intro k hk hsk hprev
    have h := pyGetGo_first env tries 0 none k hk (by simpa using hsk)
      (fun j hj => by simpa using hprev j hj)
    simpa [_get] using h
  · intro hall hpos
    have h := pyGetGo_fail env tries 0 none hpos
      (fun j hj => by simpa using hall j hj)
    simpa [_get] using h

/-- Claim C8 witness: with a 500 then a 200 the second response is
returned; with persistent 404s the error carries the last failure
reason. -/
theorem claim_C8_witness :
    _get netFailThenOk 3 = .ok (.resp 200 "payload") ∧
    _get netAll404 3 = .error "HTTP 404: notfound" := by
  constructor
  · exact (claim_C8_http_retrier netFailThenOk 3).2.1 1 (by decide) (by decide)
      (fun j hj => by
        have h0 : j = 0 := by omega
        subst h0
        decide)
  · have h := (claim_C8_http_retrier netAll404 3).2.2
      (fun i hi => by
        have h3 : i = 0 ∨ i = 1 ∨ i = 2 := by omega
        rcases h3 with rfl | rfl | rfl <;> decide)
      (by decide)
    rw [h]
    decide

/-- Claim C1: the anchor gate.  If `fetch_series` yields an empty anchor
series (code WT1010), `main` exits with status 2 before assembling or
writing anything; if the anchor is non-empty (and the fetched series
satisfy the Series invariant of unique dates), the run completes and
writes a curve, regardless of every other series being empty or not. -/
theorem claim_C1_anchor_gate (fetch : String → SeriesT) :
    (fetch "WT1010" = [] → mainRun fetch = .exitNoAnchor) ∧
    ((∀ code, hasDupKeys (fetch code) = false) → fetch "WT1010" ≠ [] →
      ∃ f, mainRun fetch = .wrote f) := by
  constructor
  · intro h
    unfold mainRun
    rw [if_pos (by simp [h])]
  · intro hdup hne
    have hgotdup : ∀ p ∈ gotOf fetch, hasDupKeys p.2 = false := by
      intro p hp
      rcases mem_gotOf_snd hp with ⟨c, hc⟩
      rw [hc]
      exact hdup c
    have hok := assembleCurve_ok_of_nodup hgotdup
    refine ⟨dropAllNA (sortFrameRows (mkFrame (gotOf fetch))), ?_⟩
    unfold mainRun
    rw [if_neg (by simpa using hne),
      if_neg (by simpa using gotOf_ne_nil fetch), hok]

/-- Claim C1 witness: an environment with an empty anchor exits with the
anchor failure; an environment where only the anchor resolves still
writes a curve. -/
theorem claim_C1_witness :
    mainRun fetchNoAnchor = RunResult.exitNoAnchor ∧
    ∃ f, mainRun fetchOnlyAnchor = RunResult.wrote f :=
  ⟨(claim_C1_anchor_gate fetchNoAnchor).1 (by decide),
   (claim_C1_anchor_gate fetchOnlyAnchor).2
     (fun code => by
       by_cases h : code = "WT1010" <;>
         simp [fetchOnlyAnchor, h, hasDupKeys, hasDups])
     (by decide)⟩

/-- Claim C10: once `main` passes the anchor gate the mapping contains the
non-empty `"10Y"` anchor, so the "no series fetched" exit (the second
`sys.exit(2)`, line 121) is unreachable, and every curve the program
writes has a `"10Y"` column. -/
theorem claim_C10_anchor_invariant (fetch : String → SeriesT) :
    mainRun fetch ≠ .exitNoSeries ∧
    (∀ f : Frame, mainRun fetch = .wrote f → "10Y" ∈ f.cols) := by
  constructor
  · intro h
    unfold mainRun at h
    split at h
    · cases h
    · split at h <;> rename_i hemp
      · exact gotOf_ne_nil fetch (by simpa using hemp)
      · split at h
        · cases h
        · cases h
  · intro f hf
    have h1 := assembleCurve_ok_eq (mainRun_eq_wrote hf)
    rw [h1]
    exact anchor_mem_gotOf fetch

/-- Claim C10 witness: under `fetchOnlyAnchor` the run does not hit the
"no series" exit and the written curve has the `"10Y"` column. -/
theorem claim_C10_witness :
    mainRun fetchOnlyAnchor ≠ RunResult.exitNoSeries ∧
    "10Y" ∈ frameAnchor.cols :=
  ⟨(claim_C10_anchor_invariant fetchOnlyAnchor).1,
   (claim_C10_anchor_invariant fetchOnlyAnchor).2 frameAnchor (by decide)⟩

/-- Claim C4 counterexample: on a CSV that repeats a date, `_parse_csv`
keeps both rows (its `dropna(subset=[dcol])` only filters dates; nothing
deduplicates), so the output has a duplicate date, refuting "strictly
ascending, no duplicate dates, last-wins". -/
theorem claim_C4_counterexample :
    _parse_csv csvDupDates =
      .ok [(some 20240101, Val.num 1), (some 20240101, Val.num 2)] ∧
    ¬ (([(some 20240101, Val.num 1), (some 20240101, Val.num 2)] : SeriesT).map
        Prod.fst).Nodup := by
  exact ⟨by decide, by decide⟩

/-- Claim C4 (amended): the JSON parser's output is strictly ascending
with unique dates (the Python dict dedups last-wins, `NaT` sorts last);
the CSV parser's output is only sorted ascending (non-strictly) — repeated
input dates are all kept. -/
theorem claim_C4_sorted_dedup :
    (∀ (js : Json) (l : SeriesT), _parse_json js = .ok l →
      List.Pairwise (fun a b => keyLTb a.1 b.1 = true) l) ∧
    (∀ (t : String) (l : SeriesT), _parse_csv t = .ok l → List.Sorted idxLE l) := by
  constructor
  · intro js l h
    rcases parse_json_shape h with rfl | ⟨es, rfl⟩
    · exact List.Pairwise.nil
    · exact pairwise_lt_of_sorted_nodup (seriesFromEntries_sorted es)
        (seriesFromEntries_keys_nodup es)
  · intro t l h
    rcases parse_csv_shape h with rfl | ⟨prs, rfl⟩
    · exact List.Pairwise.nil
    · exact sorted_sortIdx _

/-- Claim C4 witness: the amended sortedness applied to concrete JSON and
CSV fixtures. -/
theorem claim_C4_witness :
    List.Pairwise (fun a b => keyLTb a.1 b.1 = true)
      ([(some 20240101, Val.num 5), (some 20240102, Val.num 9)] : SeriesT) ∧
    List.Sorted idxLE
      ([(some 20240103, Val.num 4), (some 20240105, Val.num 6)] : SeriesT) :=
  ⟨claim_C4_sorted_dedup.1 jsonGood _ (by decide),
   claim_C4_sorted_dedup.2 csvGood _ (by decide)⟩

/-- Claim C5 counterexample: a CSV row whose value cell is unparsable is
kept with value NaN (the CSV parser drops only rows with unparsable
dates), refuting "unparsable or non-finite entries are excluded rather
than kept as missing values". -/
theorem claim_C5_counterexample :
    _parse_csv csvBadValue = .ok [(some 20240102, Val.nan)] ∧
    isNA Val.nan = true :=
  ⟨by decide, rfl⟩

/-- Claim C5 (amended): the JSON parser's output contains no NaN values
(its `dropna()` filters values); the CSV parser coerces values with
`errors="coerce"` and keeps every date-parsable row — which rows are kept
depends only on the date column, so NaN values appear in its output. -/
theorem claim_C5_value_handling :
    (∀ (js : Json) (l : SeriesT), _parse_json js = .ok l →
      ∀ p ∈ l, isNA p.2 = false) ∧
    (∀ (t : String) (hd : List String) (rs : List (List String))
      (dcol vcol : String) (l : SeriesT),
      readCsv t = .ok (hd, rs) → csvDateCol hd = some dcol →
      csvValCol hd = some vcol → _parse_csv t = .ok l →
      l.length = rs.countP
        (fun r => (toDatetime (r.getD (hd.indexOf dcol) "")).isSome)) := by
  constructor
  · intro js l h p hp
    rcases parse_json_shape h with rfl | ⟨es, rfl⟩
    · cases hp
    · exact seriesFromEntries_no_nan hp
  · intro t hd rs dcol vcol l h1 h2 h3 h4
    have he := parse_csv_eq h1 h2 h3
    rw [h4] at he
    rw [Except.ok.injEq] at he
    subst he
    unfold sortSeries
    rw [(perm_sortIdx _).length_eq, ← List.countP_eq_length_filter,
      List.countP_map]
    rfl

/-- Claim C5 witness: the amended value handling at concrete fixtures. -/
theorem claim_C5_witness :
    isNA (Val.num 5) = false ∧
    (([(some 20240103, Val.num 4), (some 20240105, Val.num 6)] : SeriesT).length
      = ([["2024-01-05", "6"], ["bad", "1"], ["2024-01-03", "4"]] :
          List (List String)).countP
        (fun r => (toDatetime
          (r.getD ((["date", "close"] : List String).indexOf "date") "")).isSome)) :=
  ⟨claim_C5_value_handling.1 jsonGood
      [(some 20240101, Val.num 5), (some 20240102, Val.num 9)] (by decide)
      (some 20240101, Val.num 5) (by decide),
   claim_C5_value_handling.2 csvGood ["date", "close"]
      [["2024-01-05", "6"], ["bad", "1"], ["2024-01-03", "4"]]
      "date" "close" _ (by decide) (by decide) (by decide) (by decide)⟩

/-- Claim C6 counterexample: the JSON parser keeps an observation whose
period label fails to parse — it lands at a `NaT` index (`Series.dropna`
drops NaN values, not `NaT` labels), refuting "such observations are
dropped". -/
theorem claim_C6_counterexample :
    _parse_json jsonBadDate = .ok [(none, Val.num 1)] ∧
    (([((none : Option Nat), Val.num 1)] : SeriesT).all
      (fun p => p.1.isSome)) = false :=
  ⟨by decide, rfl⟩

/-- Claim C6 (amended): the CSV parser drops every row whose date fails to
parse; the JSON parser retains unparsable-date observations, collapsed to
at most one `NaT`-indexed entry (removed only if its value is NaN). -/
theorem claim_C6_date_filtering :
    (∀ (t : String) (l : SeriesT), _parse_csv t = .ok l →
      ∀ p ∈ l, p.1.isSome = true) ∧
    (∀ (js : Json) (l : SeriesT), _parse_json js = .ok l →
      l.countP (fun p => p.1 == none) ≤ 1) := by
  constructor
  · intro t l h p hp
    rcases parse_csv_shape h with rfl | ⟨prs, rfl⟩
    · cases hp
    · have hm := ((perm_sortIdx _).mem_iff).1 hp
      exact (List.mem_filter.1 hm).2
  · intro js l h
    rcases parse_json_shape h with rfl | ⟨es, rfl⟩
    · simp
    · exact countP_none_le_one (seriesFromEntries_keys_nodup es)

/-- Claim C6 witness: the amended date filtering at concrete fixtures. -/
theorem claim_C6_witness :
    (some 20240103 : Option Nat).isSome = true ∧
    (([(some 20240101, Val.num 5), (some 20240102, Val.num 9)] : SeriesT).countP
      (fun p => p.1 == none) ≤ 1) :=
  ⟨claim_C6_date_filtering.1 csvGood
      [(some 20240103, Val.num 4), (some 20240105, Val.num 6)] (by decide)
      (some 20240103, Val.num 4) (by decide),
   claim_C6_date_filtering.2 jsonGood _ (by decide)⟩

/-- Claim C9: on a non-empty mapping of keys to well-formed Series, the
assembler succeeds and produces one column per key; its row dates are
strictly ascending and are exactly the dates carried by at least one
series, minus the rows whose every cell is absent (NaN); each row's cells
are the per-series lookups, where the cell is the series value when the
series carries the date and the explicit NaN absence marker (never zero or
an interpolation) otherwise. -/
theorem claim_C9_curve_assembler (got : List (String × SeriesT))
    (hne : got ≠ []) (hwf : ∀ p ∈ got, SeriesWF p.2) :
    ∃ f, assembleCurve got = .ok f ∧
      f.cols = got.map Prod.fst ∧
      List.Pairwise (fun a b => keyLTb a.1 b.1 = true) f.rows ∧
      (∀ d : Option Nat, d ∈ f.rows.map Prod.fst ↔
        ((∃ p ∈ got, d ∈ p.2.map Prod.fst) ∧
          ∃ p ∈ got, isNA (cellVal d p.2) = false)) ∧
      (∀ r ∈ f.rows, r.2 = got.map (fun p => cellVal r.1 p.2)) ∧
      (∀ p ∈ got, ∀ (d : Option Nat) (v : Val), (d, v) ∈ p.2 →
        cellVal d p.2 = v) ∧
      (∀ p ∈ got, ∀ d : Option Nat, d ∉ p.2.map Prod.fst →
        cellVal d p.2 = .nan) := by
  have hnodup : ∀ p ∈ got, hasDupKeys p.2 = false := by
    intro p hp
    unfold hasDupKeys
    rw [hasDups_eq_false_iff]
    exact keys_nodup_of_pairwise_lt (hwf p hp).1
  have hrowdef : (mkFrame got).rows =
      (unionKeys got).map (fun d => (d, got.map (fun p => cellVal d p.2))) := rfl
  have hNodupR : ((mkFrame got).rows.map Prod.fst).Nodup := by
    rw [mkFrame_rows_keys]
    exact unionKeys_nodup got
  have hPairS : List.Pairwise (fun a b => keyLTb a.1 b.1 = true)
      (List.insertionSort idxLE (mkFrame got).rows) :=
    pairwise_lt_of_sorted_nodup (sorted_sortIdx _) (keys_nodup_sortIdx hNodupR)
  refine ⟨dropAllNA (sortFrameRows (mkFrame got)),
    assembleCurve_ok_of_nodup hnodup, rfl, ?_, ?_, ?_, ?_, ?_⟩
  · exact List.Pairwise.sublist (List.filter_sublist _) hPairS
  · intro d
    constructor
    · intro hd
      rcases List.mem_map.1 hd with ⟨r, hr, hre⟩
      have hrf := List.mem_filter.1 hr
      have hrR : r ∈ (mkFrame got).rows := ((perm_sortIdx _).mem_iff).1 hrf.1
      rcases List.mem_map.1 (hrowdef ▸ hrR) with ⟨d0, hd0U, hd0e⟩
      subst hd0e
      have hd0d : d0 = d := hre
      subst hd0d
      constructor
      · exact mem_unionKeys.1 hd0U
      · have hall : (got.map (fun p => cellVal d0 p.2)).all isNA = false := by
          have := hrf.2
          simp only [Bool.not_eq_true'] at this
          exact this
        rcases List.all_eq_false.1 hall with ⟨x, hx, hxna⟩
        rcases List.mem_map.1 hx with ⟨p, hp, hpe⟩
        exact ⟨p, hp, by rw [hpe]; simpa using hxna⟩
    · rintro ⟨⟨p0, hp0, hd0⟩, ⟨p1, hp1, hc1⟩⟩
      have hdU : d ∈ unionKeys got := mem_unionKeys.2 ⟨p0, hp0, hd0⟩
      have hrR : (d, got.map (fun p => cellVal d p.2)) ∈ (mkFrame got).rows := by
        rw [hrowdef]
        exact List.mem_map_of_mem _ hdU
      have hrS : (d, got.map (fun p => cellVal d p.2)) ∈
          List.insertionSort idxLE (mkFrame got).rows :=
        ((perm_sortIdx _).mem_iff).2 hrR
      have hpred : ((d, got.map (fun p => cellVal d p.2)).2.all isNA) = false :=
        List.all_eq_false.2 ⟨cellVal d p1.2, List.mem_map_of_mem _ hp1,
          by simp [hc1]⟩
      exact List.mem_map_of_mem Prod.fst
        (List.mem_filter.2 ⟨hrS, by simp [hpred]⟩)
  · intro r hr
    have hrf := List.mem_filter.1 hr
    have hrR : r ∈ (mkFrame got).rows := ((perm_sortIdx _).mem_iff).1 hrf.1
    rcases List.mem_map.1 (hrowdef ▸ hrR) with ⟨d0, -, hd0e⟩
    subst hd0e
    rfl
  · intro p hp d v hm
    exact cellVal_of_mem (keys_nodup_of_pairwise_lt (hwf p hp).1) hm
  · intro p hp d hd
    exact cellVal_of_not_mem hd

/-- Claim C9 witness: the spec's worked example — 10Y with two dates, 2Y
with only the second — assembled concretely. -/
theorem claim_C9_witness :
    ∃ f, assembleCurve gotSpecExample = .ok f ∧
      f.cols = gotSpecExample.map Prod.fst ∧
      List.Pairwise (fun a b => keyLTb a.1 b.1 = true) f.rows ∧
      (∀ d : Option Nat, d ∈ f.rows.map Prod.fst ↔
        ((∃ p ∈ gotSpecExample, d ∈ p.2.map Prod.fst) ∧
          ∃ p ∈ gotSpecExample, isNA (cellVal d p.2) = false)) ∧
      (∀ r ∈ f.rows, r.2 = gotSpecExample.map (fun p => cellVal r.1 p.2)) ∧
      (∀ p ∈ gotSpecExample, ∀ (d : Option Nat) (v : Val), (d, v) ∈ p.2 →
        cellVal d p.2 = v) ∧
      (∀ p ∈ gotSpecExample, ∀ d : Option Nat, d ∉ p.2.map Prod.fst →
        cellVal d p.2 = .nan) :=
  claim_C9_curve_assembler gotSpecExample (by decide)
    (by simp only [SeriesWF]; decide)
